import Mathlib

/-!
Verification of the streaming-transcription core of the vibeEmail backend.

The embedding follows `backend/core/transcriber.py` (segment extraction and
the `transcribe_audio` entry point) and `backend/api/websocket.py` (the
per-connection session loop).  Audio samples and time offsets are modelled
as rationals (`ℚ`); Python's duck-typed `hasattr` probing is modelled with
`Option` fields, and attributes whose guards also test truthiness
(`result.sentences`, `result.tokens`, `sentence.tokens`) are modelled as
plain lists, the absent attribute being indistinguishable from the empty
list under those guards.
-/

namespace VibeEmail

/-- A token-like item of the raw model output: `text` if present
(`hasattr(token, 'text')`), otherwise Python falls back to `str(token)`,
modelled by `strRepr`; `startTime`/`endTime` model the optional `start`/`end`
attributes (`end` is a Lean keyword, hence the renaming). -/
structure Token where
  text? : Option String
  strRepr : String
  startTime : Option ℚ
  endTime : Option ℚ
  deriving DecidableEq, Repr

/-- A sentence-like group of the raw model output (`result.sentences[i]`):
optional own `text` with `str(sentence)` fallback, and a token list
(`hasattr(sentence,'tokens') and sentence.tokens` sees an absent attribute
and an empty list the same way, so absence is modelled as `[]`). -/
structure Sentence where
  text? : Option String
  strRepr : String
  tokens : List Token
  deriving DecidableEq, Repr

/-- The raw, shape-varying output of one inference call (the spec's
`RawModelOutput`): an optional flat `text` attribute, the `str(result)`
fallback, and possibly-empty `sentences` and `tokens` sequences. -/
structure RawOutput where
  text? : Option String
  strRepr : String
  sentences : List Sentence
  tokens : List Token
  deriving DecidableEq, Repr

/-- `TranscriptionSegment` of `transcriber.py` (`endTime` models the source's
`end` field, a Lean keyword). -/
structure TranscriptionSegment where
  text : String
  start : ℚ
  endTime : ℚ
  deriving DecidableEq, Repr

/-- `TranscriptionResult` of `transcriber.py`. -/
structure TranscriptionResult where
  segments : List TranscriptionSegment
  full_text : String
  duration : ℚ
  deriving DecidableEq, Repr

/-- Python `str.strip()`: remove leading and trailing whitespace
(kernel-computable model of the source's `.strip()` calls). -/
def pyStrip (s : String) : String :=
  ⟨((s.data.dropWhile Char.isWhitespace).reverse.dropWhile
      Char.isWhitespace).reverse⟩

/-- Python `str.endswith(suffix)` (kernel-computable model). -/
def pyEndsWith (s suffix : String) : Bool :=
  suffix.data.isSuffixOf s.data

/-- Python `' '.join`-style joining with a single separator between
elements (kernel-computable model of `" ".join(...)`). -/
def joinWithSpace : List String → String
  | [] => ""
  | [s] => s
  | s :: rest => s ++ " " ++ joinWithSpace rest

/-- `token.text if hasattr(token, 'text') else str(token)`. -/
def tokText (t : Token) : String :=
  t.text?.getD t.strRepr

/-- `token_text.strip().endswith(('.', '?', '!'))` — the sentence-boundary
test of the token-grouping loop (transcriber.py line 159). -/
def isBoundary (t : Token) : Bool :=
  pyEndsWith (pyStrip (tokText t)) "." || pyEndsWith (pyStrip (tokText t)) "?"
    || pyEndsWith (pyStrip (tokText t)) "!"

/-- Emitting one segment from a non-empty token group (transcriber.py lines
160-168 and 171-179): text is the concatenation of the tokens' texts,
stripped; start/end come from the first/last token with defaults `0.0` and
`duration`.  An empty group emits nothing (`if current_segment_tokens:`). -/
def flushGroup (duration : ℚ) : List Token → List TranscriptionSegment
  | [] => []
  | t :: ts =>
    [{ text := pyStrip (String.join ((t :: ts).map tokText))
       start := t.startTime.getD 0
       endTime := ((ts.getLastD t).endTime).getD duration }]

/-- The token-grouping loop of transcriber.py lines 152-179: accumulate a
running group, close it whenever a token's trimmed text ends in `.`, `?` or
`!`, and flush any trailing group at the end. -/
def groupTokens (duration : ℚ) : List Token → List Token → List TranscriptionSegment
  | grp, [] => flushGroup duration grp
  | grp, t :: rest =>
    if isBoundary t then
      flushGroup duration (grp ++ [t]) ++ groupTokens duration [] rest
    else
      groupTokens duration (grp ++ [t]) rest

/-- One segment per sentence group (transcriber.py lines 137-151): text is
the sentence's own text (or `str(sentence)`), stripped; start/end come from
the first/last token when tokens are present, with attribute-missing
defaults `0.0`/`duration`, and are `0.0`/`duration` when no tokens exist. -/
def segOfSentence (duration : ℚ) (s : Sentence) : TranscriptionSegment :=
  match s.tokens with
  | [] =>
    { text := pyStrip (s.text?.getD s.strRepr), start := 0, endTime := duration }
  | t :: ts =>
    { text := pyStrip (s.text?.getD s.strRepr)
      start := t.startTime.getD 0
      endTime := ((ts.getLastD t).endTime).getD duration }

/-- The segment-extraction section of `transcribe_audio` (transcriber.py
lines 126-193), the spec's `SegmentExtractor.extract`: full text from the
raw output's `text` attribute or `str(result)`; segments from sentences,
else from punctuation-grouped tokens, else a single fallback segment
carrying `full_text` over `[0, duration]`. -/
def extractResult (raw : RawOutput) (duration : ℚ) : TranscriptionResult :=
  let full_text := raw.text?.getD raw.strRepr
  let segments :=
    if raw.sentences ≠ [] then
      raw.sentences.map (segOfSentence duration)
    else if raw.tokens ≠ [] then
      groupTokens duration [] raw.tokens
    else
      []
  let segments :=
    if segments.isEmpty then
      [{ text := full_text, start := 0, endTime := duration }]
    else segments
  { segments := segments, full_text := full_text, duration := duration }

/-- The loaded real backend, abstracted: `self._model.generate(mel)[0]`
together with everything model-specific, as a function from the (normalized)
samples to a raw output; a Python exception is an `Except.error` carrying
`str(e)`. -/
structure EngineModel where
  generate : List ℚ → Except String RawOutput

/-- Peak amplitude `np.abs(audio).max()` (with `0` for an empty buffer,
where numpy would raise; the session only transcribes non-empty buffers). -/
def peakAmp (audio : List ℚ) : ℚ :=
  (audio.map (fun x => |x|)).foldl max 0

/-- transcriber.py lines 106-113: the `astype(np.float32)` conversion is the
identity in the rational model; if the peak amplitude exceeds `1.0` the
whole buffer is rescaled by `1/peak`. -/
def normalizeAudio (audio : List ℚ) : List ℚ :=
  if 1 < peakAmp audio then audio.map (fun x => x / peakAmp audio) else audio

/-- The constant result of mock (degraded-mode) transcription,
transcriber.py lines 92-100. -/
def mockResult : TranscriptionResult :=
  { segments :=
      [{ text := "[Mock transcription - parakeet-mlx not installed]"
         start := 0, endTime := 1 }]
    full_text := "[Mock transcription - parakeet-mlx not installed]"
    duration := 1 }

/-- `ParakeetTranscriber.transcribe_audio` for a loaded transcriber
(transcriber.py lines 81-193).  `model?` is `self._model`: `none` is the
degraded (mock) mode, `some m` the real backend.  In real mode the samples
are normalized and handed to the model, and `duration` is
`len(audio_data) / sample_rate`. -/
def transcribe_audio (model? : Option EngineModel) (audio_data : List ℚ)
    (sample_rate : ℚ) : Except String TranscriptionResult :=
  match model? with
  | none => .ok mockResult
  | some m =>
    match m.generate (normalizeAudio audio_data) with
    | .error e => .error e
    | .ok raw =>
      .ok (extractResult raw ((audio_data.length : ℚ) / sample_rate))

/-- The call shape used at both websocket call sites
(`transcriber.transcribe_audio(...)` with no second argument): the source's
declared default `sample_rate = 16000` is bound. -/
def transcribe_audioDefault (model? : Option EngineModel)
    (audio_data : List ℚ) : Except String TranscriptionResult :=
  transcribe_audio model? audio_data 16000

/-! ## The websocket session loop (`backend/api/websocket.py`) -/

/-- Client→server messages of the session wire protocol.  An audio message
carries its decoded float samples and the client-declared `sample_rate`
field. -/
inductive Msg where
  | audio (samples : List ℚ) (sampleRate : ℚ)
  | stop
  | ping
  deriving DecidableEq, Repr

/-- Server→client events: partial result, final result, error, pong. -/
inductive Event where
  | partialEv (text : String)
  | finalEv (text : String) (segments : List TranscriptionSegment) (duration : ℚ)
  | errorEv (error : String) (code : String)
  | pong
  deriving DecidableEq, Repr

/-- Per-session mutable state: `accumulated_audio` and `last_partial_text`. -/
structure SessState where
  accumulated : List (List ℚ)
  lastPartialText : String
  deriving DecidableEq, Repr

/-- Python `l[-8:]` — at most the last `n` elements. -/
def lastN (n : Nat) (l : List α) : List α :=
  l.drop (l.length - n)

/-- Handling one audio message (websocket.py lines 66-88): append the chunk;
when the cumulative sample count reaches `32000`, transcribe the
concatenation of the last 8 chunks (no `sample_rate` forwarded) and emit a
partial event exactly when the text changed.  The `Nat` counts transcriber
invocations. -/
def handleAudio (model? : Option EngineModel) (st : SessState)
    (samples : List ℚ) : Except String (SessState × List Event × Nat) :=
  let acc := st.accumulated ++ [samples]
  let total := (acc.map List.length).sum
  if 32000 ≤ total then
    match transcribe_audioDefault model? ((lastN 8 acc).flatten) with
    | .error e => .error e
    | .ok result =>
      if result.full_text ≠ st.lastPartialText then
        .ok (⟨acc, result.full_text⟩, [Event.partialEv result.full_text], 1)
      else
        .ok (⟨acc, st.lastPartialText⟩, [], 1)
  else
    .ok (⟨acc, st.lastPartialText⟩, [], 0)

/-- Handling the stop message (websocket.py lines 38-64): transcribe the
whole accumulated buffer (no `sample_rate` forwarded) and emit the final
event; with nothing buffered, emit the empty final event without invoking
the transcriber. -/
def handleStop (model? : Option EngineModel) (st : SessState) :
    Except String (List Event × Nat) :=
  if st.accumulated.isEmpty then
    .ok ([Event.finalEv "" [] 0], 0)
  else
    match transcribe_audioDefault model? st.accumulated.flatten with
    | .error e => .error e
    | .ok result =>
      .ok ([Event.finalEv result.full_text result.segments result.duration], 1)

/-- The session message loop (websocket.py lines 33-103) for a loaded
transcriber: messages are processed strictly in order; `stop` breaks the
loop; any exception raised while handling a message is caught by the
`except Exception` handler, which sends one `TRANSCRIPTION_ERROR` event and
leaves the loop.  Returns the emitted events and the number of transcriber
invocations. -/
def runLoop (model? : Option EngineModel) (st : SessState) :
    List Msg → List Event × Nat
  | [] => ([], 0)
  | Msg.audio samples _ :: rest =>
    match handleAudio model? st samples with
    | .ok (st', evs, k) =>
      let r := runLoop model? st' rest
      (evs ++ r.1, k + r.2)
    | .error e => ([Event.errorEv e "TRANSCRIPTION_ERROR"], 1)
  | Msg.stop :: _ =>
    (match handleStop model? st with
     | .ok (evs, k) => (evs, k)
     | .error e => ([Event.errorEv e "TRANSCRIPTION_ERROR"], 1))
  | Msg.ping :: rest =>
    let r := runLoop model? st rest
    (Event.pong :: r.1, r.2)

/-- A whole session from the initial state (`accumulated_audio = []`,
`last_partial_text = ""`). -/
def runSession (model? : Option EngineModel) (msgs : List Msg) :
    List Event × Nat :=
  runLoop model? ⟨[], ""⟩ msgs

/-! ## Spec-side characterizations and concrete instances -/

/-- Spec-side description of the token-grouping rule (§4.3 step 2 of the
spec, stated from the spec's words, to be compared with `groupTokens`):
split the flat token stream into groups, a group closing right after each
token whose trimmed text ends in `.`, `?` or `!`; trailing non-terminated
tokens form one final group. -/
def splitGroups : List Token → List (List Token)
  | [] => []
  | t :: rest =>
    if isBoundary t then [t] :: splitGroups rest
    else
      match splitGroups rest with
      | [] => [[t]]
      | g :: gs => (t :: g) :: gs

/-- A token whose every attribute is missing (used only as the default of
`headD`/`getLastD` on lists known to be non-empty). -/
def defaultToken : Token := ⟨none, "", none, none⟩

/-- Spec-side segment of one token group (§4.3 step 2): text is the
concatenation of the group's token texts, trimmed; start/end are the
first/last token's offsets with defaults `0.0`/`duration`. -/
def mkSegOfGroupSpec (duration : ℚ) (g : List Token) : TranscriptionSegment :=
  { text := pyStrip (String.join (g.map tokText))
    start := ((g.headD defaultToken).startTime).getD 0
    endTime := ((g.getLastD defaultToken).endTime).getD duration }

/-- Prefixing a pending accumulator group onto a group list (internal to
relating `groupTokens` with `splitGroups`). -/
def consGroups (grp : List Token) : List (List Token) → List (List Token)
  | [] => if grp.isEmpty then [] else [grp]
  | g :: gs => (grp ++ g) :: gs

/-- Well-formedness of one sentence group's token offsets: present offsets
of the first/last token lie in `[0, d]` and the first token's start does
not exceed the last token's end when both are present. -/
def sentenceOffsetsOk (d : ℚ) (s : Sentence) : Prop :=
  match s.tokens with
  | [] => True
  | t :: ts =>
    (∀ a ∈ t.startTime, 0 ≤ a ∧ a ≤ d) ∧
    (∀ b ∈ (ts.getLastD t).endTime, 0 ≤ b ∧ b ≤ d) ∧
    (∀ a ∈ t.startTime, ∀ b ∈ (ts.getLastD t).endTime, a ≤ b)

/-- Recognizes the `TRANSCRIPTION_ERROR` error event. -/
def isTransErr : Event → Bool
  | .errorEv _ c => c == "TRANSCRIPTION_ERROR"
  | _ => false

/-- A backend whose inference always succeeds with the same flat text. -/
def constModel (t : String) : EngineModel :=
  ⟨fun _ => .ok ⟨some t, "", [], []⟩⟩

/-- A backend whose flat text depends on how many samples it received:
`"A"` for at most 32000 samples, `"B"` for more. -/
def stepModel : EngineModel :=
  ⟨fun xs => .ok ⟨some (if xs.length ≤ 32000 then "A" else "B"), "", [], []⟩⟩

/-- A backend whose inference always raises. -/
def failModel : EngineModel :=
  ⟨fun _ => .error "boom"⟩

/-- A silent audio chunk of `n` zero samples (a named wrapper around
`List.replicate`, so that concrete sessions with realistic chunk sizes stay
symbolic during simplification). -/
def zeroChunk (n : Nat) : List ℚ :=
  List.replicate n 0

/-- A raw output with no flat-text attribute and a single token: its
`full_text` falls back to `str(result)`. -/
def rawNoText : RawOutput :=
  ⟨none, "obj", [], [⟨some "ab.", "", none, none⟩]⟩

/-- A raw output with one sentence group whose single token carries
`start = 5` and `end = 1` (start after end). -/
def rawBadOffsets : RawOutput :=
  ⟨none, "r", [⟨some "x", "", [⟨some "x", "", some 5, some 1⟩]⟩], []⟩

/-- A raw output with three flat tokens, the second one ending in `.`
(so the stream splits into a closed group and a trailing group). -/
def rawTokensDemo : RawOutput :=
  ⟨some "Hi there. Bye", "",
   [],
   [⟨some " Hi", "", some 1, some 2⟩,
    ⟨some " there.", "", none, some 3⟩,
    ⟨some " Bye", "", some 4, none⟩]⟩

/-- A raw output with one well-formed sentence group: its token's offsets
`[0, 1]` lie inside the duration `2`. -/
def rawGoodSentence : RawOutput :=
  ⟨some "Hi.", "", [⟨some "Hi.", "", [⟨some "Hi.", "", some 0, some 1⟩]⟩], []⟩

/-- The invariant refuting mid-stream error recovery: at most one
`TRANSCRIPTION_ERROR` event is ever emitted, and only as the very last
event of the session. -/
def errInvariant (l : List Event) : Prop :=
  l.countP isTransErr ≤ 1 ∧ (l.dropLast.all fun e => !isTransErr e) = true

/-! ## Supporting lemmas -/

theorem normalizeAudio_length (audio : List ℚ) :
    (normalizeAudio audio).length = audio.length := by
  unfold normalizeAudio
  split <;> simp

@[simp]
theorem zeroChunk_length (n : Nat) : (zeroChunk n).length = n :=
  List.length_replicate n 0

theorem segOfSentence_eq_nil (d : ℚ) (s : Sentence) (h : s.tokens = []) :
    segOfSentence d s =
      ⟨pyStrip (s.text?.getD s.strRepr), 0, d⟩ := by
  unfold segOfSentence
  rw [h]

theorem segOfSentence_eq_cons (d : ℚ) (s : Sentence) (t : Token)
    (ts : List Token) (h : s.tokens = t :: ts) :
    segOfSentence d s =
      ⟨pyStrip (s.text?.getD s.strRepr), t.startTime.getD 0,
        ((ts.getLastD t).endTime).getD d⟩ := by
  unfold segOfSentence
  rw [h]

theorem splitGroups_eq_nil_iff (ts : List Token) :
    splitGroups ts = [] ↔ ts = [] := by
  cases ts with
  | nil => simp [splitGroups]
  | cons t rest =>
    simp only [splitGroups]
    constructor
    · intro h
      by_cases hb : isBoundary t
      · simp [hb] at h
      · simp only [hb, if_neg, Bool.false_eq_true, if_false] at h
        cases hsg : splitGroups rest <;> simp [hsg] at h
    · intro h
      exact absurd h (List.cons_ne_nil t rest)

theorem splitGroups_flatten (ts : List Token) :
    (splitGroups ts).flatten = ts := by
  induction ts with
  | nil => simp [splitGroups]
  | cons t rest ih =>
    simp only [splitGroups]
    by_cases hb : isBoundary t
    · simp [hb, ih]
    · simp only [hb, Bool.false_eq_true, if_false]
      cases hsg : splitGroups rest with
      | nil =>
        have : rest = [] := (splitGroups_eq_nil_iff rest).mp hsg
        simp [this]
      | cons g gs =>
        rw [hsg] at ih
        simp only [List.flatten_cons] at ih ⊢
        simp [← ih]

theorem flushGroup_of_ne_nil (d : ℚ) (g : List Token) (h : g ≠ []) :
    flushGroup d g = [mkSegOfGroupSpec d g] := by
  cases g with
  | nil => exact absurd rfl h
  | cons t ts =>
    unfold flushGroup mkSegOfGroupSpec
    rw [List.getLastD_cons]
    simp

theorem consGroups_nil_left (gs : List (List Token)) :
    consGroups [] gs = gs := by
  cases gs <;> simp [consGroups]

theorem groupTokens_eq_splitGroups (d : ℚ) (ts : List Token) :
    ∀ grp, groupTokens d grp ts =
      (consGroups grp (splitGroups ts)).map (mkSegOfGroupSpec d) := by
  induction ts with
  | nil =>
    intro grp
    cases grp with
    | nil => simp [groupTokens, flushGroup, splitGroups, consGroups]
    | cons t ts' =>
      simp [groupTokens, splitGroups, consGroups,
        flushGroup_of_ne_nil d (t :: ts') (List.cons_ne_nil t ts')]
  | cons t rest ih =>
    intro grp
    simp only [groupTokens, splitGroups]
    by_cases hb : isBoundary t
    · simp only [hb, if_true]
      rw [flushGroup_of_ne_nil d (grp ++ [t]) (by simp), ih []]
      rw [consGroups_nil_left]
      cases hsg : splitGroups rest <;> simp [consGroups]
    · simp only [hb, Bool.false_eq_true, if_false]
      rw [ih (grp ++ [t])]
      cases hsg : splitGroups rest with
      | nil => simp [consGroups]
      | cons g gs => simp [consGroups]

theorem groupTokens_nil_ne_nil (d : ℚ) (toks : List Token) (h : toks ≠ []) :
    groupTokens d [] toks ≠ [] := by
  rw [groupTokens_eq_splitGroups, consGroups_nil_left]
  simp only [ne_eq, List.map_eq_nil_iff]
  intro hsg
  exact h ((splitGroups_eq_nil_iff toks).mp hsg)

theorem handleAudio_ok_evs (m : Option EngineModel) (st : SessState)
    (s : List ℚ) (st' : SessState) (evs : List Event) (k : Nat)
    (h : handleAudio m st s = .ok (st', evs, k)) :
    evs = [] ∨ ∃ t, evs = [Event.partialEv t] := by
  unfold handleAudio at h
  dsimp only at h
  split at h
  · split at h
    · exact absurd h (by simp)
    · split at h
      · injection h with h'
        injection h' with _ h''
        injection h'' with h''' _
        exact .inr ⟨_, h'''.symm⟩
      · injection h with h'
        injection h' with _ h''
        injection h'' with h''' _
        exact .inl h'''.symm
  · injection h with h'
    injection h' with _ h''
    injection h'' with h''' _
    exact .inl h'''.symm

theorem handleStop_ok_evs (m : Option EngineModel) (st : SessState)
    (evs : List Event) (k : Nat) (h : handleStop m st = .ok (evs, k)) :
    ∃ t segs dur, evs = [Event.finalEv t segs dur] := by
  unfold handleStop at h
  split at h
  · injection h with h'
    injection h' with h'' _
    exact ⟨"", [], 0, h''.symm⟩
  · split at h
    · exact absurd h (by simp)
    · injection h with h'
      injection h' with h'' _
      exact ⟨_, _, _, h''.symm⟩

theorem errInvariant_nil : errInvariant [] := by
  simp [errInvariant]

theorem errInvariant_singleton (e : Event) : errInvariant [e] := by
  constructor
  · rw [List.countP_cons]
    simp
    split <;> omega
  · simp

theorem errInvariant_cons (x : Event) (l : List Event)
    (hx : isTransErr x = false) (h : errInvariant l) :
    errInvariant (x :: l) := by
  obtain ⟨h1, h2⟩ := h
  constructor
  · rw [List.countP_cons, hx]
    simpa using h1
  · cases l with
    | nil => simp
    | cons b l' =>
      rw [show (x :: b :: l').dropLast = x :: (b :: l').dropLast from rfl]
      rw [List.all_cons, hx]
      simpa using h2

theorem errInvariant_append_safe (pre l : List Event)
    (hpre : (pre.all fun e => !isTransErr e) = true) (h : errInvariant l) :
    errInvariant (pre ++ l) := by
  induction pre with
  | nil => simpa using h
  | cons a pre' ih =>
    rw [List.all_cons] at hpre
    have ha : isTransErr a = false := by
      have := (Bool.and_eq_true _ _).mp hpre |>.1
      simpa using this
    have hrest := (Bool.and_eq_true _ _).mp hpre |>.2
    simpa using errInvariant_cons a (pre' ++ l) ha (ih hrest)

theorem runLoop_audio_ok (m : Option EngineModel) (st : SessState)
    (s : List ℚ) (r : ℚ) (rest : List Msg) (st' : SessState)
    (evs : List Event) (k : Nat)
    (h : handleAudio m st s = .ok (st', evs, k)) :
    runLoop m st (Msg.audio s r :: rest) =
      (evs ++ (runLoop m st' rest).1, k + (runLoop m st' rest).2) := by
  simp only [runLoop, h]

theorem runLoop_audio_err (m : Option EngineModel) (st : SessState)
    (s : List ℚ) (r : ℚ) (rest : List Msg) (e : String)
    (h : handleAudio m st s = .error e) :
    runLoop m st (Msg.audio s r :: rest) =
      ([Event.errorEv e "TRANSCRIPTION_ERROR"], 1) := by
  simp only [runLoop, h]

theorem runLoop_stop_ok (m : Option EngineModel) (st : SessState)
    (rest : List Msg) (evs : List Event) (k : Nat)
    (h : handleStop m st = .ok (evs, k)) :
    runLoop m st (Msg.stop :: rest) = (evs, k) := by
  simp only [runLoop, h]

theorem runLoop_errInvariant (msgs : List Msg) :
    ∀ (m : Option EngineModel) (st : SessState),
      errInvariant (runLoop m st msgs).1 := by
  induction msgs with
  | nil =>
    intro m st
    simpa [runLoop] using errInvariant_nil
  | cons msg rest ih =>
    intro m st
    cases msg with
    | audio s r =>
      cases h : handleAudio m st s with
      | error e =>
        rw [runLoop_audio_err m st s r rest e h]
        exact errInvariant_singleton _
      | ok v =>
        obtain ⟨st', evs, k⟩ := v
        rw [runLoop_audio_ok m st s r rest st' evs k h]
        apply errInvariant_append_safe
        · rcases handleAudio_ok_evs m st s st' evs k h with rfl | ⟨t, rfl⟩ <;>
            simp [isTransErr]
        · exact ih m st'
    | stop =>
      cases h : handleStop m st with
      | error e =>
        simp only [runLoop, h]
        exact errInvariant_singleton _
      | ok v =>
        obtain ⟨evs, k⟩ := v
        rw [runLoop_stop_ok m st rest evs k h]
        obtain ⟨t, segs, dur, rfl⟩ := handleStop_ok_evs m st evs k h
        exact errInvariant_singleton _
    | ping =>
      simp only [runLoop]
      exact errInvariant_cons _ _ (by simp [isTransErr]) (ih m st)

theorem handleAudio_const (t : String) (st : SessState) (s : List ℚ) :
    handleAudio (some (constModel t)) st s =
      if 32000 ≤ ((st.accumulated ++ [s]).map List.length).sum then
        if t ≠ st.lastPartialText then
          .ok (⟨st.accumulated ++ [s], t⟩, [Event.partialEv t], 1)
        else .ok (⟨st.accumulated ++ [s], st.lastPartialText⟩, [], 1)
      else .ok (⟨st.accumulated ++ [s], st.lastPartialText⟩, [], 0) := by
  unfold handleAudio transcribe_audioDefault transcribe_audio constModel
    extractResult
  simp

theorem handleStop_const (t : String) (st : SessState)
    (h : st.accumulated ≠ []) :
    handleStop (some (constModel t)) st =
      .ok ([Event.finalEv t
              [⟨t, 0, (st.accumulated.flatten.length : ℚ) / 16000⟩]
              ((st.accumulated.flatten.length : ℚ) / 16000)], 1) := by
  unfold handleStop transcribe_audioDefault transcribe_audio constModel
    extractResult
  simp [h]

theorem handleAudio_step (st : SessState) (s : List ℚ) :
    handleAudio (some stepModel) st s =
      if 32000 ≤ ((st.accumulated ++ [s]).map List.length).sum then
        if (if (lastN 8 (st.accumulated ++ [s])).flatten.length ≤ 32000
              then "A" else "B") ≠ st.lastPartialText then
          .ok (⟨st.accumulated ++ [s],
                if (lastN 8 (st.accumulated ++ [s])).flatten.length ≤ 32000
                  then "A" else "B"⟩,
              [Event.partialEv
                (if (lastN 8 (st.accumulated ++ [s])).flatten.length ≤ 32000
                  then "A" else "B")], 1)
        else .ok (⟨st.accumulated ++ [s], st.lastPartialText⟩, [], 1)
      else .ok (⟨st.accumulated ++ [s], st.lastPartialText⟩, [], 0) := by
  unfold handleAudio transcribe_audioDefault transcribe_audio stepModel
    extractResult
  simp [normalizeAudio_length]

theorem extractResult_duration (raw : RawOutput) (d : ℚ) :
    (extractResult raw d).duration = d :=
  rfl

theorem handleStop_generate (em : EngineModel) (st : SessState)
    (raw : RawOutput) (h1 : st.accumulated ≠ [])
    (h2 : em.generate (normalizeAudio st.accumulated.flatten) = .ok raw) :
    handleStop (some em) st =
      .ok ([Event.finalEv
              (extractResult raw
                ((st.accumulated.flatten.length : ℚ) / 16000)).full_text
              (extractResult raw
                ((st.accumulated.flatten.length : ℚ) / 16000)).segments
              ((st.accumulated.flatten.length : ℚ) / 16000)], 1) := by
  unfold handleStop transcribe_audioDefault transcribe_audio
  simp [h1, h2, extractResult_duration]

theorem handleStop_step (st : SessState) (h : st.accumulated ≠ []) :
    handleStop (some stepModel) st =
      .ok ([Event.finalEv
              (if st.accumulated.flatten.length ≤ 32000 then "A" else "B")
              [⟨if st.accumulated.flatten.length ≤ 32000 then "A" else "B",
                0, (st.accumulated.flatten.length : ℚ) / 16000⟩]
              ((st.accumulated.flatten.length : ℚ) / 16000)], 1) := by
  unfold handleStop transcribe_audioDefault transcribe_audio stepModel
    extractResult
  simp [normalizeAudio_length, h]

/-! ## Claim theorems -/

/-- C1: for raw output with no sentence groups and a non-empty flat token
sequence, extraction emits exactly the segments of the spec-side grouping:
the token stream splits into groups closed exactly after tokens whose
trimmed text ends in `.`, `?` or `!` (trailing tokens forming one final
group), each segment carrying the trimmed concatenation of its group's
token texts and the first/last token's offsets with `0.0`/`duration`
defaults; the groups partition the token stream in order. -/
theorem C1_token_grouping (raw : RawOutput) (d : ℚ)
    (hs : raw.sentences = []) (ht : raw.tokens ≠ []) :
    (extractResult raw d).segments =
      (splitGroups raw.tokens).map (mkSegOfGroupSpec d) ∧
    (splitGroups raw.tokens).flatten = raw.tokens := by
  constructor
  · have hg : groupTokens d [] raw.tokens =
        (splitGroups raw.tokens).map (mkSegOfGroupSpec d) := by
      rw [groupTokens_eq_splitGroups, consGroups_nil_left]
    have hne := groupTokens_nil_ne_nil d raw.tokens ht
    have hne' : (groupTokens d [] raw.tokens).isEmpty = false := by
      cases hgt : groupTokens d [] raw.tokens with
      | nil => exact absurd hgt hne
      | cons a l => rfl
    simp only [extractResult, hs, ne_eq, not_true_eq_false, if_false,
      ht, not_false_eq_true, if_true, hne', Bool.false_eq_true]
    exact hg
  · exact splitGroups_flatten raw.tokens

/-- C1 witness: a concrete three-token stream (second token ends in `.`)
yields the two spec-side groups. -/
theorem C1_token_grouping_witness :
    (extractResult rawTokensDemo 7).segments =
      (splitGroups rawTokensDemo.tokens).map (mkSegOfGroupSpec 7) ∧
    (splitGroups rawTokensDemo.tokens).flatten = rawTokensDemo.tokens :=
  C1_token_grouping rawTokensDemo 7 rfl (by decide)

/-- C2 counterexample: on a raw output without a flat-text attribute the
code sets `full_text` to `str(result)` (here `"obj"`), not to the segment
texts joined with a space (here `"ab."`). -/
theorem C2_full_text_cex :
    (extractResult rawNoText 2).full_text ≠
      joinWithSpace
        ((extractResult rawNoText 2).segments.map TranscriptionSegment.text) := by
  decide

/-- C2 amended: `full_text` is the raw output's own flat-text field
verbatim when that field is present, and otherwise the raw output's string
representation `str(result)` (not the segment texts joined with a space). -/
theorem C2_full_text_source (raw : RawOutput) (d : ℚ) :
    (∀ s, raw.text? = some s → (extractResult raw d).full_text = s) ∧
    (raw.text? = none → (extractResult raw d).full_text = raw.strRepr) := by
  constructor
  · intro s h
    simp [extractResult, h]
  · intro h
    simp [extractResult, h]

/-- C2 witness: a raw output carrying flat text `"hello"` keeps it
verbatim. -/
theorem C2_full_text_witness :
    (extractResult ⟨some "hello", "r", [], []⟩ 1).full_text = "hello" :=
  (C2_full_text_source ⟨some "hello", "r", [], []⟩ 1).1 "hello" rfl

/-- C3 counterexample: a sentence group whose single token carries
`start = 5` and `end = 1` produces a segment with `start > end`, so the
unconditional `start ≤ end` part of the claim fails. -/
theorem C3_sentence_cex :
    ∃ seg ∈ (extractResult rawBadOffsets 2).segments,
      ¬ seg.start ≤ seg.endTime := by
  decide

/-- C3 amended: for raw output with non-empty sentence groups, extraction
produces exactly one segment per group in group order, with the group's
trimmed text and the first/last-token offsets (defaults `0.0`/`duration`);
and — provided the duration is non-negative and each group's present
first/last token offsets lie in `[0, duration]` with start not exceeding
end — every produced segment satisfies `start ≤ end`. -/
theorem C3_sentence_segments (raw : RawOutput) (d : ℚ)
    (hs : raw.sentences ≠ []) (hd : 0 ≤ d)
    (hok : ∀ s ∈ raw.sentences, sentenceOffsetsOk d s) :
    (extractResult raw d).segments = raw.sentences.map (segOfSentence d) ∧
    ∀ seg ∈ (extractResult raw d).segments, seg.start ≤ seg.endTime := by
  have hmapne : (raw.sentences.map (segOfSentence d)).isEmpty = false := by
    cases hr : raw.sentences with
    | nil => exact absurd hr hs
    | cons a l => rfl
  have hseg : (extractResult raw d).segments =
      raw.sentences.map (segOfSentence d) := by
    simp only [extractResult, ne_eq, hs, not_false_eq_true, if_true,
      hmapne, Bool.false_eq_true, if_false]
  refine ⟨hseg, ?_⟩
  rw [hseg]
  intro seg hmem
  rw [List.mem_map] at hmem
  obtain ⟨s, hsmem, rfl⟩ := hmem
  have hws := hok s hsmem
  unfold sentenceOffsetsOk at hws
  cases h : s.tokens with
  | nil =>
    rw [segOfSentence_eq_nil d s h]
    simpa using hd
  | cons t ts =>
    rw [h] at hws
    obtain ⟨h1, h2, h3⟩ := hws
    rw [segOfSentence_eq_cons d s t ts h]
    show t.startTime.getD 0 ≤ (ts.getLastD t).endTime.getD d
    cases ha : t.startTime with
    | none =>
      cases hb : (ts.getLastD t).endTime with
      | none => simpa using hd
      | some b => simpa using (h2 b (Option.mem_def.mpr hb)).1
    | some a =>
      cases hb : (ts.getLastD t).endTime with
      | none => simpa using (h1 a (Option.mem_def.mpr ha)).2
      | some b =>
        simpa using h3 a (Option.mem_def.mpr ha) b (Option.mem_def.mpr hb)

/-- C3 witness: a well-formed one-sentence raw output (token offsets `0` and
`1`, duration `2`) yields one ordered segment with `start ≤ end`. -/
theorem C3_sentence_segments_witness :
    (extractResult rawGoodSentence 2).segments =
      rawGoodSentence.sentences.map (segOfSentence 2) ∧
    ∀ seg ∈ (extractResult rawGoodSentence 2).segments,
      seg.start ≤ seg.endTime :=
  C3_sentence_segments rawGoodSentence 2 (by decide) (by norm_num)
    (by
      intro s hsmem
      simp only [rawGoodSentence, List.mem_singleton] at hsmem
      subst hsmem
      refine ⟨?_, ?_, ?_⟩ <;> simp)

/-- C4 counterexample: degraded-mode inference on 32000 samples at 16 kHz
reports duration `1.0`, not `len(samples)/sampleRate = 2.0`. -/
theorem C4_degraded_cex :
    transcribe_audio none (List.replicate 32000 (0 : ℚ)) 16000 =
      .ok mockResult ∧
    mockResult.duration ≠
      ((List.replicate 32000 (0 : ℚ)).length : ℚ) / 16000 := by
  refine ⟨rfl, ?_⟩
  rw [List.length_replicate]
  show (1 : ℚ) ≠ ((32000 : ℕ) : ℚ) / 16000
  norm_num

/-- C4 amended: degraded-mode (mock) inference always returns the fixed
placeholder result: its flat text is the placeholder string and its
duration is the constant `1.0`, independent of `len(samples)/sampleRate`. -/
theorem C4_degraded_mode :
    ∀ (audio : List ℚ) (r : ℚ),
      transcribe_audio none audio r = .ok mockResult ∧
      mockResult.full_text =
        "[Mock transcription - parakeet-mlx not installed]" ∧
      mockResult.duration = 1 :=
  fun _ _ => ⟨rfl, rfl, rfl⟩

/-- C5 counterexample: with a backend that raises `"boom"`, a session that
crosses the partial threshold emits exactly the one `TRANSCRIPTION_ERROR`
event and then terminates — the following `ping` is never answered, so the
session does not return to idle and keep processing messages. -/
theorem C5_recovery_cex :
    runSession (some failModel)
      [Msg.audio (zeroChunk 32000) 16000, Msg.ping] =
      ([Event.errorEv "boom" "TRANSCRIPTION_ERROR"], 1) := by
  have h : handleAudio (some failModel) ⟨[], ""⟩ (zeroChunk 32000) =
      .error "boom" := by
    unfold handleAudio
    dsimp only
    rw [if_pos (by simp)]
    rfl
  unfold runSession
  rw [runLoop_audio_err (some failModel) ⟨[], ""⟩
    (zeroChunk 32000) 16000 [Msg.ping] "boom" h]

/-- C5 amended: an exception during an inference pass is caught and
reported as one `TRANSCRIPTION_ERROR` event carrying the failure
description, after which the session loop exits: a session never emits more
than one `TRANSCRIPTION_ERROR` event, such an event can only be the last
event of the session, and no subsequent messages are processed. -/
theorem C5_error_event_closes_session (model? : Option EngineModel) :
    (∀ msgs : List Msg,
        (runSession model? msgs).1.countP isTransErr ≤ 1 ∧
        ((runSession model? msgs).1.dropLast.all
          fun e => !isTransErr e) = true) ∧
    (∀ (st : SessState) (s : List ℚ) (r : ℚ) (rest : List Msg) (e : String),
        handleAudio model? st s = .error e →
        runLoop model? st (Msg.audio s r :: rest) =
          ([Event.errorEv e "TRANSCRIPTION_ERROR"], 1)) := by
  constructor
  · intro msgs
    exact runLoop_errInvariant msgs model? ⟨[], ""⟩
  · intro st s r rest e h
    exact runLoop_audio_err model? st s r rest e h

/-- C5 witness: the amended statement applied to the raising backend at a
concrete above-threshold state — the error event is emitted and the
remaining `ping` is dropped. -/
theorem C5_error_event_witness :
    runLoop (some failModel) ⟨[zeroChunk 32000], ""⟩
      (Msg.audio [] 16000 :: [Msg.ping]) =
      ([Event.errorEv "boom" "TRANSCRIPTION_ERROR"], 1) :=
  (C5_error_event_closes_session (some failModel)).2
    ⟨[zeroChunk 32000], ""⟩ [] 16000 [Msg.ping] "boom"
    (by
      unfold handleAudio
      dsimp only
      rw [if_pos (by simp)]
      rfl)

/-- C6 counterexample: in the spec's scenario (three chunks of 16000, 16000
and 8000 samples — 40000 total — then stop), a backend whose text depends
on the transcribed window emits TWO partial events, not exactly one: the
threshold test is never reset, so every audio message after the crossing
triggers another partial pass. -/
theorem C6_scenario_cex :
    (runSession (some stepModel)
      [Msg.audio (zeroChunk 16000) 16000,
       Msg.audio (zeroChunk 16000) 16000,
       Msg.audio (zeroChunk 8000) 16000, Msg.stop]).1 =
    [Event.partialEv "A", Event.partialEv "B",
     Event.finalEv "B" [⟨"B", 0, 5 / 2⟩] (5 / 2)] := by
  have e1 : handleAudio (some stepModel) ⟨[], ""⟩ (zeroChunk 16000) =
      .ok (⟨[zeroChunk 16000], ""⟩, [], 0) := by
    rw [handleAudio_step]
    simp
  have e2 : handleAudio (some stepModel)
      ⟨[zeroChunk 16000], ""⟩ (zeroChunk 16000) =
      .ok (⟨[zeroChunk 16000, zeroChunk 16000], "A"⟩,
        [Event.partialEv "A"], 1) := by
    rw [handleAudio_step]
    simp [lastN]
  have e3 : handleAudio (some stepModel)
      ⟨[zeroChunk 16000, zeroChunk 16000], "A"⟩ (zeroChunk 8000) =
      .ok (⟨[zeroChunk 16000, zeroChunk 16000, zeroChunk 8000], "B"⟩,
        [Event.partialEv "B"], 1) := by
    rw [handleAudio_step]
    simp [lastN]
  have estop : handleStop (some stepModel)
      ⟨[zeroChunk 16000, zeroChunk 16000, zeroChunk 8000], "B"⟩ =
      .ok ([Event.finalEv "B" [⟨"B", 0, 5 / 2⟩] (5 / 2)], 1) := by
    rw [handleStop_step _ (by simp)]
    norm_num
  unfold runSession
  rw [runLoop_audio_ok _ _ _ _ _ _ _ _ e1,
    runLoop_audio_ok _ _ _ _ _ _ _ _ e2,
    runLoop_audio_ok _ _ _ _ _ _ _ _ e3,
    runLoop_stop_ok _ _ _ _ _ estop]
  simp

/-- C6 amended: in the 40000-sample three-chunk scenario the session
triggers a partial pass on every audio message once the cumulative count
reaches 32000 (over at most the last 8 chunks), so with a backend whose
text on every pass is the same non-empty `t`, exactly one partial event is
emitted (later identical texts are suppressed), and exactly one final event
covering all 40000 samples with duration `2.5` follows. -/
theorem C6_scenario (t : String) (c1 c2 c3 : List ℚ) (r1 r2 r3 : ℚ)
    (ht : t ≠ "") (hsum : c1.length + c2.length + c3.length = 40000) :
    (runSession (some (constModel t))
      [Msg.audio c1 r1, Msg.audio c2 r2, Msg.audio c3 r3, Msg.stop]).1 =
    [Event.partialEv t, Event.finalEv t [⟨t, 0, 5 / 2⟩] (5 / 2)] := by
  have hstop : ∀ lt : String,
      handleStop (some (constModel t)) ⟨[c1, c2, c3], lt⟩ =
        .ok ([Event.finalEv t [⟨t, 0, 5 / 2⟩] (5 / 2)], 1) := by
    intro lt
    rw [handleStop_const t ⟨[c1, c2, c3], lt⟩ (by simp)]
    have h40 : (⟨[c1, c2, c3], lt⟩ : SessState).accumulated.flatten.length
        = 40000 := by
      simp
      omega
    rw [h40]
    norm_num
  unfold runSession
  by_cases h1 : 32000 ≤ c1.length
  · have e1 : handleAudio (some (constModel t)) ⟨[], ""⟩ c1 =
        .ok (⟨[c1], t⟩, [Event.partialEv t], 1) := by
      rw [handleAudio_const, if_pos (by simp; omega), if_pos ht]
      rfl
    have e2 : handleAudio (some (constModel t)) ⟨[c1], t⟩ c2 =
        .ok (⟨[c1, c2], t⟩, [], 1) := by
      rw [handleAudio_const, if_pos (by simp; omega), if_neg (by simp)]
      rfl
    have e3 : handleAudio (some (constModel t)) ⟨[c1, c2], t⟩ c3 =
        .ok (⟨[c1, c2, c3], t⟩, [], 1) := by
      rw [handleAudio_const, if_pos (by simp; omega), if_neg (by simp)]
      rfl
    rw [runLoop_audio_ok _ _ _ _ _ _ _ _ e1,
      runLoop_audio_ok _ _ _ _ _ _ _ _ e2,
      runLoop_audio_ok _ _ _ _ _ _ _ _ e3,
      runLoop_stop_ok _ _ _ _ _ (hstop t)]
    simp
  · by_cases h2 : 32000 ≤ c1.length + c2.length
    · have e1 : handleAudio (some (constModel t)) ⟨[], ""⟩ c1 =
          .ok (⟨[c1], ""⟩, [], 0) := by
        rw [handleAudio_const, if_neg (by simp; omega)]
        rfl
      have e2 : handleAudio (some (constModel t)) ⟨[c1], ""⟩ c2 =
          .ok (⟨[c1, c2], t⟩, [Event.partialEv t], 1) := by
        rw [handleAudio_const, if_pos (by simp; omega), if_pos ht]
        rfl
      have e3 : handleAudio (some (constModel t)) ⟨[c1, c2], t⟩ c3 =
          .ok (⟨[c1, c2, c3], t⟩, [], 1) := by
        rw [handleAudio_const, if_pos (by simp; omega), if_neg (by simp)]
        rfl
      rw [runLoop_audio_ok _ _ _ _ _ _ _ _ e1,
        runLoop_audio_ok _ _ _ _ _ _ _ _ e2,
        runLoop_audio_ok _ _ _ _ _ _ _ _ e3,
        runLoop_stop_ok _ _ _ _ _ (hstop t)]
      simp
    · have e1 : handleAudio (some (constModel t)) ⟨[], ""⟩ c1 =
          .ok (⟨[c1], ""⟩, [], 0) := by
        rw [handleAudio_const, if_neg (by simp; omega)]
        rfl
      have e2 : handleAudio (some (constModel t)) ⟨[c1], ""⟩ c2 =
          .ok (⟨[c1, c2], ""⟩, [], 0) := by
        rw [handleAudio_const, if_neg (by simp; omega)]
        rfl
      have e3 : handleAudio (some (constModel t)) ⟨[c1, c2], ""⟩ c3 =
          .ok (⟨[c1, c2, c3], t⟩, [Event.partialEv t], 1) := by
        rw [handleAudio_const, if_pos (by simp; omega), if_pos ht]
        rfl
      rw [runLoop_audio_ok _ _ _ _ _ _ _ _ e1,
        runLoop_audio_ok _ _ _ _ _ _ _ _ e2,
        runLoop_audio_ok _ _ _ _ _ _ _ _ e3,
        runLoop_stop_ok _ _ _ _ _ (hstop t)]
      simp

/-- C6 witness: the amended scenario at concrete chunks of 16000, 16000 and
8000 zero samples with constant text `"hello"`. -/
theorem C6_scenario_witness :
    (runSession (some (constModel "hello"))
      [Msg.audio (zeroChunk 16000) 16000,
       Msg.audio (zeroChunk 16000) 16000,
       Msg.audio (zeroChunk 8000) 16000, Msg.stop]).1 =
    [Event.partialEv "hello",
     Event.finalEv "hello" [⟨"hello", 0, 5 / 2⟩] (5 / 2)] :=
  C6_scenario "hello" _ _ _ 16000 16000 16000 (by decide) (by simp)

/-- C7: a partial pass emits no event when its `full_text` equals the last
emitted partial text, and any emitted partial text differs from the last
emitted partial text. -/
theorem C7_partial_suppression (model? : Option EngineModel) (st : SessState)
    (s : List ℚ) (st' : SessState) (evs : List Event) (k : Nat)
    (h : handleAudio model? st s = .ok (st', evs, k)) :
    (∀ res, transcribe_audioDefault model?
        ((lastN 8 (st.accumulated ++ [s])).flatten) = .ok res →
      res.full_text = st.lastPartialText → evs = []) ∧
    (∀ t, Event.partialEv t ∈ evs → t ≠ st.lastPartialText) := by
  unfold handleAudio at h
  dsimp only at h
  split at h
  · cases htr : transcribe_audioDefault model?
        ((lastN 8 (st.accumulated ++ [s])).flatten) with
    | error e =>
      rw [htr] at h
      exact absurd h (by simp)
    | ok result =>
      rw [htr] at h
      split at h
      · rename_i e hmatch
        exact absurd hmatch (by simp)
      · rename_i result' hmatch
        injection hmatch with hres
        subst hres
        split at h
        · rename_i hne
          injection h with h'
          injection h' with _ h''
          injection h'' with hevs _
          constructor
          · intro res hres2 hfull
            injection hres2 with hres2'
            exact absurd (hres2' ▸ hfull) hne
          · intro t htmem
            rw [← hevs] at htmem
            simp only [List.mem_singleton, Event.partialEv.injEq] at htmem
            rw [htmem]
            exact hne
        · rename_i hne
          injection h with h'
          injection h' with _ h''
          injection h'' with hevs _
          constructor
          · intro _ _ _
            exact hevs.symm
          · intro t htmem
            rw [← hevs] at htmem
            exact absurd htmem (List.not_mem_nil _)
  · injection h with h'
    injection h' with _ h''
    injection h'' with hevs _
    constructor
    · intro _ _ _
      exact hevs.symm
    · intro t htmem
      rw [← hevs] at htmem
      exact absurd htmem (List.not_mem_nil _)

/-- C7 witness: the suppression statement at a concrete below-threshold
step (no event is emitted there). -/
theorem C7_partial_suppression_witness :
    (∀ res, transcribe_audioDefault (some (constModel "a"))
        ((lastN 8 ((⟨[], ""⟩ : SessState).accumulated ++ [[]])).flatten) =
        .ok res →
      res.full_text = "" → ([] : List Event) = []) ∧
    (∀ t, Event.partialEv t ∈ ([] : List Event) → t ≠ "") :=
  C7_partial_suppression (some (constModel "a")) ⟨[], ""⟩ [] ⟨[[]], ""⟩ [] 0
    rfl

/-- C8: a stop message on a session with zero buffered audio emits exactly
one final event `{"", [], is_final, duration 0}` without invoking the
transcriber (invocation count 0), and the loop ends — any later messages
are ignored. -/
theorem C8_stop_without_audio (model? : Option EngineModel)
    (lastText : String) (rest : List Msg) :
    runLoop model? ⟨[], lastText⟩ (Msg.stop :: rest) =
      ([Event.finalEv "" [] 0], 0) :=
  runLoop_stop_ok model? ⟨[], lastText⟩ rest [Event.finalEv "" [] 0] 0 rfl

/-- C9 counterexample: in degraded mode the reported final duration is the
mock's constant `1.0`, not the total sample count divided by 16000 — here a
session with 2 samples (client-declared rate 8000) gets duration `1`,
while `2 / 16000 ≠ 1`. -/
theorem C9_degraded_duration_cex :
    runSession none [Msg.audio [0, 0] 8000, Msg.stop] =
      ([Event.finalEv "[Mock transcription - parakeet-mlx not installed]"
          [⟨"[Mock transcription - parakeet-mlx not installed]", 0, 1⟩]
          1], 1) ∧
    (1 : ℚ) ≠ (([0, 0] : List ℚ).length : ℚ) / 16000 := by
  constructor
  · rfl
  · norm_num

/-- C9 amended: the session never forwards the client-declared sample rate
(the rate field of an audio message is irrelevant to the whole run), and in
real — non-degraded — mode the final event's reported duration is the total
buffered sample count divided by the transcriber's default 16000. -/
theorem C9_default_rate (em : EngineModel) (st : SessState) (raw : RawOutput)
    (h1 : st.accumulated ≠ [])
    (h2 : em.generate (normalizeAudio st.accumulated.flatten) = .ok raw) :
    (∀ (model? : Option EngineModel) (st' : SessState) (s : List ℚ)
        (r r' : ℚ) (rest : List Msg),
        runLoop model? st' (Msg.audio s r :: rest) =
          runLoop model? st' (Msg.audio s r' :: rest)) ∧
    runLoop (some em) st [Msg.stop] =
      ([Event.finalEv
          (extractResult raw
            ((st.accumulated.flatten.length : ℚ) / 16000)).full_text
          (extractResult raw
            ((st.accumulated.flatten.length : ℚ) / 16000)).segments
          ((st.accumulated.flatten.length : ℚ) / 16000)], 1) := by
  constructor
  · intro m st' s r r' rest
    rfl
  · exact runLoop_stop_ok _ _ _ _ _ (handleStop_generate em st raw h1 h2)

/-- C9 witness: a one-sample real-mode session reports duration
`1 / 16000` regardless of any client rate. -/
theorem C9_default_rate_witness :
    runLoop (some (constModel "x")) ⟨[[0]], ""⟩ [Msg.stop] =
      ([Event.finalEv "x" [⟨"x", 0, 1 / 16000⟩] (1 / 16000)], 1) := by
  have h := (C9_default_rate (constModel "x") ⟨[[0]], ""⟩
    ⟨some "x", "", [], []⟩ (by decide) rfl).2
  simpa [extractResult] using h

/-- C10: extraction always produces a non-empty segment list; in
particular, when the raw output has no sentence groups and no tokens, the
result is the single fallback segment `[full_text, 0, duration]` —
unconditionally, even when `full_text` is empty. -/
theorem C10_fallback_segment (raw : RawOutput) (d : ℚ) :
    (extractResult raw d).segments ≠ [] ∧
    (raw.sentences = [] → raw.tokens = [] →
      (extractResult raw d).segments =
        [⟨raw.text?.getD raw.strRepr, 0, d⟩]) := by
  constructor
  · by_cases hs : raw.sentences = []
    · by_cases htk : raw.tokens = []
      · simp [extractResult, hs, htk]
      · have hne := groupTokens_nil_ne_nil d raw.tokens htk
        have hne' : (groupTokens d [] raw.tokens).isEmpty = false := by
          cases hgt : groupTokens d [] raw.tokens with
          | nil => exact absurd hgt hne
          | cons a l => rfl
        simpa [extractResult, hs, htk, hne'] using hne
    · cases hr : raw.sentences with
      | nil => exact absurd hr hs
      | cons a l => simp [extractResult, hr]
  · intro hs htk
    simp [extractResult, hs, htk]

/-- C10 witness: the degenerate raw output (empty flat text, no sentences,
no tokens) still yields the single empty fallback segment. -/
theorem C10_fallback_segment_witness :
    (extractResult ⟨some "", "", [], []⟩ 0).segments = [⟨"", 0, 0⟩] :=
  (C10_fallback_segment ⟨some "", "", [], []⟩ 0).2 rfl rfl

end VibeEmail
